import Mathlib

/-!
Verification of the core of the ahecn-receiving-hospital-mvp repository:
the referral status workflow (receiving_hospital_dashboard.py), the
append-only event log (storage.py) and the whole-dataset persistence
collaborator (data_persistence.py), shallowly embedded in Lean.

Python dict/list data handled by `json.dumps` and `json.load` is modelled by
the inductive type `Json`; serialized JSON text is modelled at token level by
`List Tok` (string escaping and number formatting are carried verbatim inside
the `tstr` and `tnum` tokens, which is faithful because the Python json module
round-trips both). Timestamps (`time.time()` values) are modelled as `Nat`:
no claim depends on fractional seconds.
-/

namespace AHECN

/-- A JSON value: the shape of the Python dict/list data that
`json.dumps` and `json.load` exchange in the source. Objects are modelled as
association lists of string keys, which is what Python dicts serialize to. -/
inductive Json where
  | null
  | bool (b : Bool)
  | num (n : Int)
  | str (s : String)
  | arr (elems : List Json)
  | obj (members : List (String × Json))
deriving Repr, Inhabited

/-- One token of serialized JSON text. -/
inductive Tok where
  | lbrace
  | rbrace
  | lbrack
  | rbrack
  | colon
  | comma
  | tnull
  | tbool (b : Bool)
  | tnum (n : Int)
  | tstr (s : String)
deriving Repr, DecidableEq, Inhabited

mutual

/-- Token stream produced for one JSON value (the body of `json.dumps`). -/
def dumpVal : Json → List Tok
  | .null => [.tnull]
  | .bool b => [.tbool b]
  | .num n => [.tnum n]
  | .str s => [.tstr s]
  | .arr [] => [.lbrack, .rbrack]
  | .arr (e :: es) => .lbrack :: (dumpVal e ++ dumpElems es ++ [.rbrack])
  | .obj [] => [.lbrace, .rbrace]
  | .obj ((k, v) :: ms) =>
      .lbrace :: .tstr k :: .colon :: (dumpVal v ++ dumpMembers ms ++ [.rbrace])

/-- Comma-separated tail of an array body. -/
def dumpElems : List Json → List Tok
  | [] => []
  | e :: es => .comma :: (dumpVal e ++ dumpElems es)

/-- Comma-separated tail of an object body. -/
def dumpMembers : List (String × Json) → List Tok
  | [] => []
  | (k, v) :: ms => .comma :: .tstr k :: .colon :: (dumpVal v ++ dumpMembers ms)

end

/-- Token-level `json.dumps`. -/
def json_dumps (v : Json) : List Tok := dumpVal v

mutual

/-- Size measure used as parser fuel: every value and list tail is positive. -/
def sizeJ : Json → Nat
  | .null => 1
  | .bool _ => 1
  | .num _ => 1
  | .str _ => 1
  | .arr [] => 1
  | .arr (e :: es) => 1 + sizeJ e + sizeL es
  | .obj [] => 1
  | .obj (m :: ms) => 1 + sizeJ m.2 + sizeM ms

def sizeL : List Json → Nat
  | [] => 1
  | e :: es => 1 + sizeJ e + sizeL es

def sizeM : List (String × Json) → Nat
  | [] => 1
  | m :: ms => 1 + sizeJ m.2 + sizeM ms

end

mutual

/-- Recursive-descent parser for one JSON value over a token stream, with
explicit fuel; returns the value and the unconsumed tokens. -/
def parseVal : Nat → List Tok → Option (Json × List Tok)
  | 0, _ => none
  | _ + 1, .tnull :: r => some (.null, r)
  | _ + 1, .tbool b :: r => some (.bool b, r)
  | _ + 1, .tnum n :: r => some (.num n, r)
  | _ + 1, .tstr s :: r => some (.str s, r)
  | _ + 1, .lbrack :: .rbrack :: r => some (.arr [], r)
  | f + 1, .lbrack :: r =>
      match parseVal f r with
      | some (v, r1) =>
          match parseElems f r1 with
          | some (vs, r2) => some (.arr (v :: vs), r2)
          | none => none
      | none => none
  | _ + 1, .lbrace :: .rbrace :: r => some (.obj [], r)
  | f + 1, .lbrace :: .tstr k :: .colon :: r =>
      match parseVal f r with
      | some (v, r1) =>
          match parseMembers f r1 with
          | some (ms, r2) => some (.obj ((k, v) :: ms), r2)
          | none => none
      | none => none
  | _ + 1, _ => none

/-- Parses the comma-separated remainder of an array up to `rbrack`. -/
def parseElems : Nat → List Tok → Option (List Json × List Tok)
  | 0, _ => none
  | _ + 1, .rbrack :: r => some ([], r)
  | f + 1, .comma :: r =>
      match parseVal f r with
      | some (v, r1) =>
          match parseElems f r1 with
          | some (vs, r2) => some (v :: vs, r2)
          | none => none
      | none => none
  | _ + 1, _ => none

/-- Parses the comma-separated remainder of an object up to `rbrace`. -/
def parseMembers : Nat → List Tok → Option (List (String × Json) × List Tok)
  | 0, _ => none
  | _ + 1, .rbrace :: r => some ([], r)
  | f + 1, .comma :: .tstr k :: .colon :: r =>
      match parseVal f r with
      | some (v, r1) =>
          match parseMembers f r1 with
          | some (ms, r2) => some ((k, v) :: ms, r2)
          | none => none
      | none => none
  | _ + 1, _ => none

end

/-- Token-level `json.loads`: the whole token stream must parse as exactly
one value (`json.loads` rejects trailing garbage); `none` models a raised
`JSONDecodeError`. -/
def json_loads (ts : List Tok) : Option Json :=
  match parseVal (ts.length + 1) ts with
  | some (v, []) => some v
  | _ => none

/-!
## data_persistence.py

The functions `load_data` / `save_data` persist one whole dataset to the file
`data.json`. The file system is modelled as `Option (List Tok)`: `none` is an
absent file (`open` raises, caught by the bare `except`), `some content` is
the stored serialized text. A dataset is plain Python dict/list data, i.e. a
`Json` value (the source defines no record class for it).
-/

/-- The fallback dataset returned by `load_data` when reading fails. -/
def default_data : Json :=
  Json.obj [("referrals", Json.arr []), ("interventions", Json.obj []),
    ("resources", Json.obj [])]

/-- The function `load_data`: `try: return json.load(open("data.json"))`
with a bare `except` returning the default structure. An absent file and
unparseable content both raise inside the `try`; content that parses is
returned as-is, with no schema check. -/
def load_data (file : Option (List Tok)) : Json :=
  match file with
  | none => default_data
  | some content =>
      match json_loads content with
      | some v => v
      | none => default_data

/-- The function `save_data`: `json.dump(data, f)` over a fresh
`open("data.json", "w")` — a full overwrite of whatever the file held
before. -/
def save_data (data : Json) (_file : Option (List Tok)) : Option (List Tok) :=
  some (json_dumps data)

/-!
## storage.py

The event log is a single sqlite table
`events(id INTEGER PRIMARY KEY AUTOINCREMENT, ts, type, case_id, actor, payload)`.
`AUTOINCREMENT` assigns each insert a rowid strictly larger than every rowid
the table has ever used; the model carries that counter as `nextId`.
The `payload` column is TEXT holding serialized JSON, modelled as `List Tok`.
-/

/-- One row of the `events` table. -/
structure EventRow where
  id : Nat
  ts : Nat
  etype : String
  case_id : String
  actor : String
  payload : List Tok
deriving Repr, DecidableEq

/-- The `events` table plus its `AUTOINCREMENT` counter. -/
structure DB where
  rows : List EventRow
  nextId : Nat
deriving Repr, DecidableEq

/-- A freshly created database: empty table, first rowid will be 1. -/
def DB.init : DB := ⟨[], 1⟩

/-- The sqlite facts the proofs rely on: rows sit in ascending rowid order
(the order both an unqualified scan and `ORDER BY id ASC` produce) and every
used rowid is below the `AUTOINCREMENT` counter. `DB.init` satisfies it and
`publish_event` preserves it. -/
def DB.WF (db : DB) : Prop :=
  db.rows.Pairwise (fun a b => a.id < b.id) ∧ ∀ r ∈ db.rows, r.id < db.nextId

/-- The function `publish_event(etype, case_id, actor, payload)`: inserts
one row with `ts = time.time()` (passed here as `now`) and
`payload = json.dumps(payload or {})` — a `None` payload is stored as the
empty object (and so is an empty dict, which serializes identically) — then
returns `last_insert_rowid()`, the freshly assigned id. -/
def publish_event (db : DB) (now : Nat) (etype case_id actor : String)
    (payload : Option Json) : DB × Nat :=
  let row : EventRow :=
    ⟨db.nextId, now, etype, case_id, actor, json_dumps (payload.getD (Json.obj []))⟩
  (⟨db.rows ++ [row], db.nextId + 1⟩, db.nextId)

/-- One event as returned by `poll_events_since`: the row with its payload
text decoded back to data. -/
structure PolledEvent where
  id : Nat
  ts : Nat
  etype : String
  case_id : String
  actor : String
  payload : Json
deriving Repr

/-- Payload decoding in `poll_events_since`:
`data = json.loads(payload) if payload else {}` inside `try`, with
`except: data = {}` — empty text and unparseable text both yield the empty
dict and never raise. -/
def decode_payload (p : List Tok) : Json :=
  if p.isEmpty then Json.obj []
  else
    match json_loads p with
    | some v => v
    | none => Json.obj []

/-- The row-to-output projection of `poll_events_since`. -/
def toPolled (r : EventRow) : PolledEvent :=
  ⟨r.id, r.ts, r.etype, r.case_id, r.actor, decode_payload r.payload⟩

/-- The WHERE clause, combined with the Python truthiness guard `if case_id:`
that decides between the filtered and unfiltered query: a `None` case filter
and an empty-string case filter both run the unfiltered query. -/
def rowMatches (last_id : Int) (case_id : Option String) (r : EventRow) : Bool :=
  decide (last_id < (r.id : Int)) &&
    match case_id with
    | none => true
    | some c => if c = "" then true else decide (r.case_id = c)

/-- The function `poll_events_since(last_id, case_id, limit)`: the query
`SELECT ... WHERE id > ? [AND case_id = ?] ORDER BY id ASC LIMIT ?` followed
by the payload-decoding projection. sqlite treats a negative LIMIT as no
limit. -/
def poll_events_since (db : DB) (last_id : Int) (case_id : Option String)
    (limit : Int) : List PolledEvent :=
  let selected :=
    (db.rows.filter (rowMatches last_id case_id)).insertionSort
      (fun a b => a.id ≤ b.id)
  let limited := if limit < 0 then selected else selected.take limit.toNat
  limited.map toPolled

/-- The input of one `publish_event` call. -/
structure PubCall where
  now : Nat
  etype : String
  case_id : String
  actor : String
  payload : Option Json

/-- Runs a sequence of `publish_event` calls, collecting the returned ids. -/
def runPublishes (db : DB) : List PubCall → DB × List Nat
  | [] => (db, [])
  | c :: cs =>
      let p := publish_event db c.now c.etype c.case_id c.actor c.payload
      let rest := runPublishes p.1 cs
      (rest.1, p.2 :: rest.2)

/-!
## receiving_hospital_dashboard.py — referral cases and clinical actions

A patient referral is a plain dict in the source; the fields the claims are
about are carried here: `status`, the `times` milestone map, the audit log
and the reject reason. The four clinical-action button handlers in
`display_clinical_overview` (lines 585-603, duplicated at 487-505) mutate
only the `status` key and then call `auto_save()` and `st.rerun()`, neither
of which touches the patient record.
-/

/-- One audit-log entry: timestamp, action tag, detail text. -/
structure AuditEntry where
  ts : Nat
  action : String
  detail : String
deriving Repr, DecidableEq

/-- The claim-relevant slice of one referral-case dict. -/
structure Patient where
  id : String
  status : String
  times : List (String × Nat)
  audit_log : List AuditEntry
  rejectReason : Option String
deriving Repr, DecidableEq

/-- The Accept button handler: `patient["status"] = "ACCEPTED"`. -/
def clickAccept (p : Patient) : Patient := { p with status := "ACCEPTED" }

/-- The En Route button handler: `patient["status"] = "ENROUTE"`. -/
def clickEnRoute (p : Patient) : Patient := { p with status := "ENROUTE" }

/-- The Arrived button handler: `patient["status"] = "ARRIVE_DEST"`. -/
def clickArrived (p : Patient) : Patient := { p with status := "ARRIVE_DEST" }

/-- The Handover button handler: `patient["status"] = "HANDOVER"`. -/
def clickHandover (p : Patient) : Patient := { p with status := "HANDOVER" }

/-- The four transition actions offered by `display_clinical_overview`. -/
inductive ClinicalAction where
  | accept
  | enroute
  | arrived
  | handover
deriving Repr, DecidableEq

/-- The status each button writes. -/
def targetStatus : ClinicalAction → String
  | .accept => "ACCEPTED"
  | .enroute => "ENROUTE"
  | .arrived => "ARRIVE_DEST"
  | .handover => "HANDOVER"

/-- Dispatch of one clinical action to its button handler. -/
def applyAction : ClinicalAction → Patient → Patient
  | .accept => clickAccept
  | .enroute => clickEnRoute
  | .arrived => clickArrived
  | .handover => clickHandover

/-- The enumerated reject reasons, verbatim from
receiving_hospital_dashboard.py line 32 (repeated at line 731). -/
def REJECT_REASONS : List String :=
  ["No ICU bed", "No specialist", "Equipment down", "Over capacity",
   "Outside scope", "Patient diverted"]

/-- The error taxonomy of the reject contract. -/
inductive TransitionError where
  | invalidStateTransition
  | invalidArgument
deriving Repr, DecidableEq

/-- Modelled from the spec: the repository contains no reject operation —
only the `REJECT_REASONS` constant above exists in the source, and nothing
in it ever writes a `REJECTED` status. Per spec section 4.1, `reject` is
legal from any non-terminal status, requires the reason to be one of the
enumerated reject reasons (`InvalidArgument` otherwise, before any state
mutation), sets status to `REJECTED` and appends a `REJECTED` audit entry
carrying the reason. -/
def reject (p : Patient) (now : Nat) (reason : String) :
    Except TransitionError Patient :=
  if p.status = "HANDOVER" ∨ p.status = "REJECTED" then
    Except.error TransitionError.invalidStateTransition
  else if reason ∈ REJECT_REASONS then
    Except.ok
      { p with
        status := "REJECTED"
        rejectReason := some reason
        audit_log := p.audit_log ++ [⟨now, "REJECTED", reason⟩] }
  else Except.error TransitionError.invalidArgument

/-!
## receiving_hospital_dashboard.py — live feed ingestion and notifications

The function `_ingest_events_for` (lines 1262-1296) polls new events for the
open case, advances the watermark, appends to the vitals/interventions
buffers, and evaluates the deterioration rule. On a triggering
`vitals.update` (and on every `status.update`) it calls `push_notification`
with FIVE positional arguments (title, body, an extra f-string, case id,
urgency), while `push_notification` (line 857) is declared with parameters
`(title, body, case_id=None, urgency="medium")` and accepts at most four —
so the call raises `TypeError`, modelled as `Except.error PyError.typeError`.
-/

/-- Python truthiness of a JSON value, used by the `or` guards in the
source. -/
def pyTruthy : Json → Bool
  | .null => false
  | .bool b => b
  | .num n => n != 0
  | .str s => s != ""
  | .arr l => !l.isEmpty
  | .obj m => !m.isEmpty

/-- The dict method `pl.get(k)`: `none` models both an absent key and a
non-dict receiver (the payloads routed here are dicts). -/
def Json.get : Json → String → Option Json
  | .obj ms, k => ms.lookup k
  | _, _ => none

/-- The guard `isinstance(x, (int, float)) and x < 90`. A Python bool is an
int instance (True is 1, False is 0), so it passes the check too. -/
def numLt90 : Option Json → Bool
  | some (.num n) => decide (n < 90)
  | some (.bool b) => decide ((if b then (1 : Int) else 0) < 90)
  | _ => false

/-- The alert-side AVPU default, `pl.get` with an `or` fallback to "A": an
absent key and a falsy value both give "A". -/
def alertAvpu (pl : Json) : Json :=
  match pl.get "avpu" with
  | some v => if pyTruthy v then v else Json.str "A"
  | none => Json.str "A"

/-- The membership test of avpu against the list V, P, U; a non-string value
compares unequal to all three. -/
def avpuFlag : Json → Bool
  | .str s => s == "V" || s == "P" || s == "U"
  | _ => false

/-- One notification record as built by `push_notification` (the uuid id
field is omitted: no claim depends on it). -/
structure Notification where
  ts : Nat
  title : String
  body : String
  case_id : Option String
  read : Bool
  urgency : String
deriving Repr

/-- The function `push_notification(title, body, case_id, urgency)`: builds
the urgency icon, prefixes it to the title, and inserts the record at the
front of the notifications list (unread). This is what a well-formed call
appends; the calls inside `_ingest_events_for` never reach it. -/
def push_notification (notifications : List Notification) (now : Nat)
    (title body : String) (case_id : Option String) (urgency : String) :
    List Notification :=
  let icon := if urgency = "high" then "🔴" else if urgency = "medium" then "🟡" else "🔵"
  ⟨now, icon ++ " " ++ title, body, case_id, false, urgency⟩ :: notifications

/-- One `vitals_buffer` row: `ts` plus the payload fields, with the buffer
default `pl.get("avpu", "A")` applied to AVPU. -/
structure VitalsRow where
  ts : Nat
  hr : Option Json
  sbp : Option Json
  rr : Option Json
  spo2 : Option Json
  temp : Option Json
  avpu : Json
deriving Repr

/-- One `interventions_buffer` row. -/
structure InterventionRow where
  ts : Nat
  name : Json
  status : Json
  byActor : String
deriving Repr

/-- The per-case session-state slice `_ingest_events_for` mutates. -/
structure FeedState where
  vitals_buffer : List VitalsRow
  interventions_buffer : List InterventionRow
  notifications : List Notification
deriving Repr

/-- A raised Python exception. -/
inductive PyError where
  | typeError
deriving Repr, DecidableEq

/-- The per-event routing loop body of `_ingest_events_for`. The two
`Except.error PyError.typeError` branches are the five-positional-argument
calls to the four-parameter `push_notification`. -/
def route_event (s : FeedState) (ev : PolledEvent) : Except PyError FeedState :=
  let pl := if pyTruthy ev.payload then ev.payload else Json.obj []
  if ev.etype = "vitals.update" then
    let s1 : FeedState :=
      { s with
        vitals_buffer := s.vitals_buffer ++
          [⟨ev.ts, pl.get "hr", pl.get "sbp", pl.get "rr", pl.get "spo2",
            pl.get "temp", (pl.get "avpu").getD (Json.str "A")⟩] }
    if numLt90 (pl.get "sbp") || numLt90 (pl.get "spo2")
        || avpuFlag (alertAvpu pl) then
      Except.error PyError.typeError
    else Except.ok s1
  else if ev.etype = "intervention.added" then
    Except.ok
      { s with
        interventions_buffer := s.interventions_buffer ++
          [⟨ev.ts, (pl.get "name").getD (Json.str ""),
            (pl.get "status").getD (Json.str "completed"), ev.actor⟩] }
  else if ev.etype = "status.update" then
    Except.error PyError.typeError
  else Except.ok s

/-- The loop over new events; a raised exception aborts it. -/
def ingest_events (s : FeedState) : List PolledEvent → Except PyError FeedState
  | [] => Except.ok s
  | e :: r =>
      match route_event s e with
      | Except.ok s1 => ingest_events s1 r
      | Except.error err => Except.error err

/-- The function `_ingest_events_for(case_id)`: polls with the per-case
watermark and limit 500, returns unchanged on no news, otherwise advances
the watermark to the maximum new id (before routing, so the advance survives
a crash in the loop) and routes each event. -/
def ingest_events_for (db : DB) (case_id : String) (wm : Nat) (s : FeedState) :
    Nat × Except PyError FeedState :=
  let new_events := poll_events_since db (wm : Int) (some case_id) 500
  if new_events.isEmpty then (wm, Except.ok s)
  else
    let wm2 := (new_events.map (fun e => e.id)).foldl max 0
    (wm2, ingest_events s new_events)

/-!
## Concrete instances used by counterexamples and witnesses
-/

/-- A log holding exactly one published event, for case "A". -/
def dbA : DB := (publish_event DB.init 100 "vitals.update" "A" "emt" none).1

/-- A log holding two published events, for cases "A" and "B". -/
def dbW : DB :=
  (publish_event (publish_event DB.init 100 "vitals.update" "A" "emt" none).1
    110 "status.update" "B" "emt" none).1

/-- A log state holding one row whose payload text does not parse. -/
def dbBad : DB := ⟨[⟨1, 5, "vitals.update", "A", "emt", [Tok.comma]⟩], 2⟩

/-- The payload of the C7 scenario: sbp 80, spo2 95, avpu "A". -/
def c7_payload : Json :=
  Json.obj [("sbp", Json.num 80), ("spo2", Json.num 95), ("avpu", Json.str "A")]

/-- A log holding the single C7 scenario event for case "C1". -/
def dbC7 : DB :=
  (publish_event DB.init 50 "vitals.update" "C1" "emt" (some c7_payload)).1

/-- An empty per-case feed state. -/
def emptyFeed : FeedState := ⟨[], [], []⟩

/-- A case fresh at first contact. -/
def prealertPatient : Patient :=
  ⟨"C2", "PREALERT", [("first_contact_ts", 100)], [], none⟩

/-- A case already in the terminal REJECTED status. -/
def rejectedPatient : Patient :=
  ⟨"C3", "REJECTED", [("first_contact_ts", 100)],
    [⟨100, "REJECTED", "No ICU bed"⟩], some "No ICU bed"⟩

/-!
## Parser correctness
-/

theorem one_le_sizeJ (v : Json) : 1 ≤ sizeJ v := by
  cases v with
  | null => simp [sizeJ]
  | bool b => simp [sizeJ]
  | num n => simp [sizeJ]
  | str s => simp [sizeJ]
  | arr es => cases es <;> (simp only [sizeJ]; omega)
  | obj ms => cases ms <;> (simp only [sizeJ]; omega)

theorem one_le_sizeL (es : List Json) : 1 ≤ sizeL es := by
  cases es <;> (simp only [sizeL]; omega)

theorem one_le_sizeM (ms : List (String × Json)) : 1 ≤ sizeM ms := by
  cases ms <;> (simp only [sizeM]; omega)

theorem dumpVal_head (v : Json) : ∃ c t, dumpVal v = c :: t ∧ c ≠ Tok.rbrack := by
  cases v with
  | null => exact ⟨Tok.tnull, [], rfl, by decide⟩
  | bool b => exact ⟨Tok.tbool b, [], rfl, by simp⟩
  | num n => exact ⟨Tok.tnum n, [], rfl, by simp⟩
  | str s => exact ⟨Tok.tstr s, [], rfl, by simp⟩
  | arr es =>
      cases es with
      | nil => exact ⟨Tok.lbrack, _, rfl, by decide⟩
      | cons e es => exact ⟨Tok.lbrack, _, rfl, by decide⟩
  | obj ms =>
      cases ms with
      | nil => exact ⟨Tok.lbrace, _, rfl, by decide⟩
      | cons m ms => obtain ⟨k, w⟩ := m; exact ⟨Tok.lbrace, _, rfl, by decide⟩

mutual

theorem rt_val (v : Json) (f : Nat) (rest : List Tok) (h : sizeJ v < f) :
    parseVal f (dumpVal v ++ rest) = some (v, rest) := by
  cases f with
  | zero => exact absurd h (Nat.not_lt_zero _)
  | succ g =>
    cases v with
    | null => simp [dumpVal, parseVal]
    | bool b => simp [dumpVal, parseVal]
    | num n => simp [dumpVal, parseVal]
    | str s => simp [dumpVal, parseVal]
    | arr es =>
        cases es with
        | nil => simp [dumpVal, parseVal]
        | cons e es =>
            have hs : 1 + sizeJ e + sizeL es < g + 1 := by
              simpa [sizeJ] using h
            have he : sizeJ e < g := by
              have := one_le_sizeL es; omega
            have hes : sizeL es < g := by
              have := one_le_sizeJ e; omega
            obtain ⟨c, t, hct, hc⟩ := dumpVal_head e
            have hx : dumpVal (Json.arr (e :: es)) ++ rest
                = Tok.lbrack :: (dumpVal e ++ (dumpElems es ++ (Tok.rbrack :: rest))) := by
              simp [dumpVal]
            have hred : parseVal (g + 1)
                (Tok.lbrack :: (dumpVal e ++ (dumpElems es ++ (Tok.rbrack :: rest))))
                = match parseVal g (dumpVal e ++ (dumpElems es ++ (Tok.rbrack :: rest))) with
                  | some (v, r1) =>
                      match parseElems g r1 with
                      | some (vs, r2) => some (Json.arr (v :: vs), r2)
                      | none => none
                  | none => none := by
              rw [hct]
              cases c <;> simp_all [parseVal]
            rw [hx, hred, rt_val e g _ he]
            simp [rt_elems es g rest hes]
    | obj ms =>
        cases ms with
        | nil => simp [dumpVal, parseVal]
        | cons m ms =>
            obtain ⟨k, w⟩ := m
            have hs : 1 + sizeJ w + sizeM ms < g + 1 := by
              simpa [sizeJ] using h
            have hw : sizeJ w < g := by
              have := one_le_sizeM ms; omega
            have hms : sizeM ms < g := by
              have := one_le_sizeJ w; omega
            have hx : dumpVal (Json.obj ((k, w) :: ms)) ++ rest
                = Tok.lbrace :: Tok.tstr k :: Tok.colon ::
                    (dumpVal w ++ (dumpMembers ms ++ (Tok.rbrace :: rest))) := by
              simp [dumpVal]
            rw [hx]
            simp only [parseVal]
            rw [rt_val w g _ hw]
            simp [rt_members ms g rest hms]

theorem rt_elems (es : List Json) (f : Nat) (rest : List Tok) (h : sizeL es < f) :
    parseElems f (dumpElems es ++ (Tok.rbrack :: rest)) = some (es, rest) := by
  cases f with
  | zero => exact absurd h (Nat.not_lt_zero _)
  | succ g =>
    cases es with
    | nil => simp [dumpElems, parseElems]
    | cons e es =>
        have hs : 1 + sizeJ e + sizeL es < g + 1 := by
          simpa [sizeL] using h
        have he : sizeJ e < g := by
          have := one_le_sizeL es; omega
        have hes : sizeL es < g := by
          have := one_le_sizeJ e; omega
        have hx : dumpElems (e :: es) ++ (Tok.rbrack :: rest)
            = Tok.comma :: (dumpVal e ++ (dumpElems es ++ (Tok.rbrack :: rest))) := by
          simp [dumpElems]
        rw [hx]
        simp only [parseElems]
        rw [rt_val e g _ he]
        simp [rt_elems es g rest hes]

theorem rt_members (ms : List (String × Json)) (f : Nat) (rest : List Tok) (h : sizeM ms < f) :
    parseMembers f (dumpMembers ms ++ (Tok.rbrace :: rest)) = some (ms, rest) := by
  cases f with
  | zero => exact absurd h (Nat.not_lt_zero _)
  | succ g =>
    cases ms with
    | nil => simp [dumpMembers, parseMembers]
    | cons m ms =>
        obtain ⟨k, w⟩ := m
        have hs : 1 + sizeJ w + sizeM ms < g + 1 := by
          simpa [sizeM] using h
        have hw : sizeJ w < g := by
          have := one_le_sizeM ms; omega
        have hms : sizeM ms < g := by
          have := one_le_sizeJ w; omega
        have hx : dumpMembers ((k, w) :: ms) ++ (Tok.rbrace :: rest)
            = Tok.comma :: Tok.tstr k :: Tok.colon ::
                (dumpVal w ++ (dumpMembers ms ++ (Tok.rbrace :: rest))) := by
          simp [dumpMembers]
        rw [hx]
        simp only [parseMembers]
        rw [rt_val w g _ hw]
        simp [rt_members ms g rest hms]

end

mutual

theorem sizeJ_le_len (v : Json) : sizeJ v ≤ (dumpVal v).length := by
  cases v with
  | null => simp [dumpVal, sizeJ]
  | bool b => simp [dumpVal, sizeJ]
  | num n => simp [dumpVal, sizeJ]
  | str s => simp [dumpVal, sizeJ]
  | arr es =>
      cases es with
      | nil => simp [dumpVal, sizeJ]
      | cons e es =>
          have h1 := sizeJ_le_len e
          have h2 := sizeL_le_len es
          simp only [dumpVal, sizeJ, List.length_cons, List.length_append,
            List.length_singleton]
          omega
  | obj ms =>
      cases ms with
      | nil => simp [dumpVal, sizeJ]
      | cons m ms =>
          obtain ⟨k, w⟩ := m
          have h1 := sizeJ_le_len w
          have h2 := sizeM_le_len ms
          simp only [dumpVal, sizeJ, List.length_cons, List.length_append,
            List.length_singleton]
          omega

theorem sizeL_le_len (es : List Json) : sizeL es ≤ (dumpElems es).length + 1 := by
  cases es with
  | nil => simp [dumpElems, sizeL]
  | cons e es =>
      have h1 := sizeJ_le_len e
      have h2 := sizeL_le_len es
      simp only [dumpElems, sizeL, List.length_cons, List.length_append]
      omega

theorem sizeM_le_len (ms : List (String × Json)) : sizeM ms ≤ (dumpMembers ms).length + 1 := by
  cases ms with
  | nil => simp [dumpMembers, sizeM]
  | cons m ms =>
      obtain ⟨k, w⟩ := m
      have h1 := sizeJ_le_len w
      have h2 := sizeM_le_len ms
      simp only [dumpMembers, sizeM, List.length_cons, List.length_append]
      omega

end

/-- Serializing any JSON value and parsing the result back yields the value:
the verified core of the save/load round trip. -/
theorem json_loads_json_dumps (v : Json) : json_loads (json_dumps v) = some v := by
  have hf : sizeJ v < (dumpVal v).length + 1 :=
    Nat.lt_succ_of_le (sizeJ_le_len v)
  have h1 : parseVal ((dumpVal v).length + 1) (dumpVal v ++ []) = some (v, []) :=
    rt_val v _ [] hf
  rw [List.append_nil] at h1
  simp [json_loads, json_dumps, h1]

/-!
## Event log lemmas
-/

theorem publish_event_wf (db : DB) (now : Nat) (etype case_id actor : String)
    (payload : Option Json) (h : db.WF) :
    (publish_event db now etype case_id actor payload).1.WF := by
  obtain ⟨h1, h2⟩ := h
  constructor
  · simp only [publish_event]
    rw [List.pairwise_append]
    refine ⟨h1, by simp, ?_⟩
    intro a ha b hb
    simp only [List.mem_singleton] at hb
    subst hb
    exact h2 a ha
  · intro r hr
    simp only [publish_event, List.mem_append, List.mem_singleton] at hr
    rcases hr with hr | hr
    · exact Nat.lt_succ_of_lt (h2 r hr)
    · subst hr; exact Nat.lt_succ_self _

theorem runPublishes_ids (calls : List PubCall) :
    ∀ db : DB, ((runPublishes db calls).2).Pairwise (· < ·)
      ∧ ∀ i ∈ (runPublishes db calls).2, db.nextId ≤ i := by
  induction calls with
  | nil => intro db; simp [runPublishes]
  | cons c cs ih =>
      intro db
      obtain ⟨ihp, ihge⟩ := ih (publish_event db c.now c.etype c.case_id c.actor c.payload).1
      have hnext : (publish_event db c.now c.etype c.case_id c.actor c.payload).1.nextId
          = db.nextId + 1 := rfl
      rw [hnext] at ihge
      have hsnd : (runPublishes db (c :: cs)).2
          = db.nextId ::
            (runPublishes (publish_event db c.now c.etype c.case_id c.actor c.payload).1 cs).2 := rfl
      rw [hsnd]
      constructor
      · exact List.Pairwise.cons
          (fun i hi => lt_of_lt_of_le (Nat.lt_succ_self _) (ihge i hi)) ihp
      · intro i hi
        rcases List.mem_cons.mp hi with hi | hi
        · exact hi ▸ Nat.le_refl _
        · exact le_trans (Nat.le_succ _) (ihge i hi)

theorem rowMatches_iff (last : Int) (cf : Option String)
    (hcf : cf = none ∨ ∃ c, cf = some c ∧ c ≠ "") (r : EventRow) :
    rowMatches last cf r = true
      ↔ last < (r.id : Int) ∧ ∀ c, cf = some c → r.case_id = c := by
  rcases hcf with h | ⟨c, h, hc⟩ <;> subst h
  · simp [rowMatches]
  · simp [rowMatches, hc]

theorem filter_pairwise_of_wf (db : DB) (hwf : db.WF) (last : Int)
    (cf : Option String) :
    (db.rows.filter (rowMatches last cf)).Pairwise (fun a b => a.id < b.id) :=
  List.Pairwise.sublist (List.filter_sublist _) hwf.1

theorem poll_eq_of_wf (db : DB) (hwf : db.WF) (last : Int) (cf : Option String)
    (limit : Int) (hlim : 0 ≤ limit) :
    poll_events_since db last cf limit
      = ((db.rows.filter (rowMatches last cf)).take limit.toNat).map toPolled := by
  have hsorted : (db.rows.filter (rowMatches last cf)).Sorted
      (fun a b : EventRow => a.id ≤ b.id) :=
    (filter_pairwise_of_wf db hwf last cf).imp (fun h => Nat.le_of_lt h)
  unfold poll_events_since
  rw [List.Sorted.insertionSort_eq hsorted]
  simp [Int.not_lt.mpr hlim]

theorem decode_payload_empty_or_bad (p : List Tok)
    (hp : p = [] ∨ json_loads p = none) : decode_payload p = Json.obj [] := by
  rcases hp with rfl | hbad
  · rfl
  · simp [decode_payload, hbad]

/-!
## Claims
-/

/-- Claim C1 (counterexample): invoked on a case whose current status
(PREALERT) does not permit it, markHandover — the Handover button handler —
does not fail and does not leave the status unchanged: it sets the status to
HANDOVER. -/
theorem C1_counterexample :
    (clickHandover prealertPatient).status = "HANDOVER"
    ∧ prealertPatient.status = "PREALERT"
    ∧ ("HANDOVER" : String) ≠ "PREALERT" :=
  ⟨rfl, rfl, by decide⟩

/-- Claim C1 (amended): the transition handlers present in the source
(accept, markEnRoute, markArrived, markHandover — reject does not exist)
perform no legality check at all: invoked on a case in any current status,
each one succeeds, unconditionally sets its target status, and leaves the
times map, the audit log and the id unchanged; no InvalidStateTransition
failure exists in the code. -/
theorem C1_transitions_unguarded_amended (a : ClinicalAction) (p : Patient) :
    (applyAction a p).status = targetStatus a
    ∧ (applyAction a p).times = p.times
    ∧ (applyAction a p).audit_log = p.audit_log
    ∧ (applyAction a p).id = p.id := by
  cases a <;> exact ⟨rfl, rfl, rfl, rfl⟩

/-- Claim C2 (counterexample): the claim quantifies over every optional case
filter and every limit. At the explicit inputs below it fails: `dbA` holds
exactly one event, for case "A". Polling with the supplied case filter ""
returns that event even though its case id is not "" (the truthiness guard
`if case_id:` discards an empty-string filter), and polling with limit -1
returns 1 entry, which is not at most -1 (sqlite treats a negative LIMIT as
no limit). -/
theorem C2_counterexample :
    (poll_events_since dbA 0 (some "") 200).map (fun e => e.case_id) = ["A"]
    ∧ (poll_events_since dbA 0 none (-1)).length = 1 := by
  constructor <;> rfl

/-- Claim C2 (amended): for every well-formed log state, cursor, case filter
that is absent or non-empty, and nonnegative limit, `poll_events_since`
returns only stored events with id strictly above the cursor matching the
filter, in strictly ascending id order, at most `limit` of them; and when
the matching events fit within `limit`, every matching stored event is
returned. An empty result is an ordinary value, not an error. -/
theorem C2_pollSince_amended (db : DB) (hwf : db.WF) (last : Int)
    (cf : Option String) (hcf : cf = none ∨ ∃ c, cf = some c ∧ c ≠ "")
    (limit : Int) (hlim : 0 ≤ limit) :
    (poll_events_since db last cf limit).Pairwise (fun a b => a.id < b.id)
    ∧ (poll_events_since db last cf limit).length ≤ limit.toNat
    ∧ (∀ e ∈ poll_events_since db last cf limit,
        ∃ r ∈ db.rows, toPolled r = e ∧ last < (r.id : Int)
          ∧ ∀ c, cf = some c → r.case_id = c)
    ∧ ((db.rows.filter (rowMatches last cf)).length ≤ limit.toNat →
        ∀ r ∈ db.rows, last < (r.id : Int) → (∀ c, cf = some c → r.case_id = c) →
          toPolled r ∈ poll_events_since db last cf limit) := by
  have heq := poll_eq_of_wf db hwf last cf limit hlim
  have hfp := filter_pairwise_of_wf db hwf last cf
  refine ⟨?_, ?_, ?_, ?_⟩
  · rw [heq]
    refine List.pairwise_map.mpr ?_
    exact (List.Pairwise.sublist (List.take_sublist _ _) hfp).imp (fun h => h)
  · rw [heq]
    simp only [List.length_map, List.length_take]
    omega
  · intro e he
    rw [heq] at he
    obtain ⟨r, hrt, rfl⟩ := List.mem_map.mp he
    have hrf : r ∈ db.rows.filter (rowMatches last cf) :=
      List.mem_of_mem_take hrt
    obtain ⟨hrm, hm⟩ := List.mem_filter.mp hrf
    obtain ⟨h1, h2⟩ := (rowMatches_iff last cf hcf r).mp hm
    exact ⟨r, hrm, rfl, h1, h2⟩
  · intro hle r hr hlast hcase
    rw [heq, List.take_of_length_le hle]
    exact List.mem_map_of_mem toPolled
      (List.mem_filter.mpr ⟨hr, (rowMatches_iff last cf hcf r).mpr ⟨hlast, hcase⟩⟩)

/-- Claim C2 (witness): the amended theorem applied to the concrete
two-event log `dbW`, cursor 0, case filter "A" and limit 200. -/
theorem C2_pollSince_amended_witness :
    dbW.WF
    ∧ ((some "A" : Option String) = none ∨ ∃ c, (some "A" : Option String) = some c ∧ c ≠ "")
    ∧ (0 : Int) ≤ 200
    ∧ ((poll_events_since dbW 0 (some "A") 200).Pairwise (fun a b => a.id < b.id)
      ∧ (poll_events_since dbW 0 (some "A") 200).length ≤ (200 : Int).toNat
      ∧ (∀ e ∈ poll_events_since dbW 0 (some "A") 200,
          ∃ r ∈ dbW.rows, toPolled r = e ∧ (0 : Int) < (r.id : Int)
            ∧ ∀ c, (some "A" : Option String) = some c → r.case_id = c)
      ∧ ((dbW.rows.filter (rowMatches 0 (some "A"))).length ≤ (200 : Int).toNat →
          ∀ r ∈ dbW.rows, (0 : Int) < (r.id : Int) →
            (∀ c, (some "A" : Option String) = some c → r.case_id = c) →
            toPolled r ∈ poll_events_since dbW 0 (some "A") 200)) :=
  ⟨⟨by decide, by decide⟩, Or.inr ⟨"A", rfl, by decide⟩, by decide,
    C2_pollSince_amended dbW ⟨by decide, by decide⟩ 0 (some "A")
      (Or.inr ⟨"A", rfl, by decide⟩) 200 (by decide)⟩

/-- Claim C3: across any sequence of publish calls on a fresh log, the ids
returned by `publish_event` are strictly increasing in call order — so each
one is strictly greater than every id assigned before it, whatever the case
ids involved — and no id is ever assigned twice. -/
theorem C3_publish_ids_strictly_increasing (calls : List PubCall) :
    ((runPublishes DB.init calls).2).Pairwise (· < ·)
    ∧ ((runPublishes DB.init calls).2).Nodup := by
  have h := runPublishes_ids calls DB.init
  exact ⟨h.1, h.1.imp (fun hlt => Nat.ne_of_lt hlt)⟩

/-- Claim C4 (counterexample): a transition invoked on a case in the
terminal REJECTED status does not fail and does not leave the record
unchanged: accept sets the status to ACCEPTED. -/
theorem C4_counterexample :
    rejectedPatient.status = "REJECTED"
    ∧ (clickAccept rejectedPatient).status = "ACCEPTED"
    ∧ clickAccept rejectedPatient ≠ rejectedPatient :=
  ⟨rfl, rfl, by decide⟩

/-- Claim C4 (amended): HANDOVER and REJECTED are not enforced as terminal
by the code — accept invoked on a case in either terminal status succeeds,
overwrites the status with ACCEPTED, and changes the record; no
InvalidStateTransition is raised. -/
theorem C4_terminal_not_enforced_amended (p : Patient)
    (h : p.status = "HANDOVER" ∨ p.status = "REJECTED") :
    (clickAccept p).status = "ACCEPTED" ∧ clickAccept p ≠ p := by
  refine ⟨rfl, ?_⟩
  intro he
  have hst : ("ACCEPTED" : String) = p.status := congrArg Patient.status he
  rcases h with h | h <;> rw [h] at hst <;> exact absurd hst (by decide)

/-- Claim C4 (witness): the amended theorem applied to the concrete
rejected case. -/
theorem C4_terminal_not_enforced_amended_witness :
    (rejectedPatient.status = "HANDOVER" ∨ rejectedPatient.status = "REJECTED")
    ∧ ((clickAccept rejectedPatient).status = "ACCEPTED"
      ∧ clickAccept rejectedPatient ≠ rejectedPatient) :=
  ⟨Or.inr rfl, C4_terminal_not_enforced_amended rejectedPatient (Or.inr rfl)⟩

/-- Claim C5 (counterexample): after accept then markEnRoute from PREALERT
the status is ENROUTE, but times.dispatch and times.enroute are NOT set and
no ENROUTE audit entry was appended — the handler mutates only the status
key. -/
theorem C5_counterexample :
    (clickEnRoute (clickAccept prealertPatient)).status = "ENROUTE"
    ∧ (clickEnRoute (clickAccept prealertPatient)).times.lookup "dispatch_ts" = none
    ∧ (clickEnRoute (clickAccept prealertPatient)).times.lookup "enroute_ts" = none
    ∧ (clickEnRoute (clickAccept prealertPatient)).audit_log = [] :=
  ⟨rfl, rfl, rfl, rfl⟩

/-- Claim C5 (amended): markEnRoute — the En Route button handler — sets the
status to ENROUTE and touches nothing else: for every case, alone or after
accept, the times map (so the dispatch and enroute milestones in particular)
and the audit log are exactly those of the input case. -/
theorem C5_markEnRoute_amended (p : Patient) :
    (clickEnRoute (clickAccept p)).status = "ENROUTE"
    ∧ (clickEnRoute (clickAccept p)).times = p.times
    ∧ (clickEnRoute (clickAccept p)).audit_log = p.audit_log
    ∧ (clickEnRoute p).status = "ENROUTE"
    ∧ (clickEnRoute p).times = p.times
    ∧ (clickEnRoute p).audit_log = p.audit_log :=
  ⟨rfl, rfl, rfl, rfl, rfl, rfl⟩

/-- Claim C6: for every case in a non-terminal status, reject with a reason
drawn from the enumerated reject-reason set succeeds, sets status to
REJECTED and appends a REJECTED audit entry carrying that reason (leaving
times and id untouched); with a reason outside the set it fails with
InvalidArgument and performs no mutation. Proved against the spec-modelled
`reject` (the source has no reject operation). -/
theorem C6_reject_contract (p : Patient) (now : Nat) (reason : String)
    (h1 : p.status ≠ "HANDOVER") (h2 : p.status ≠ "REJECTED") :
    (reason ∈ REJECT_REASONS →
      ∃ q, reject p now reason = Except.ok q
        ∧ q.status = "REJECTED"
        ∧ q.audit_log = p.audit_log ++ [⟨now, "REJECTED", reason⟩]
        ∧ q.audit_log.getLast? = some ⟨now, "REJECTED", reason⟩
        ∧ q.times = p.times ∧ q.id = p.id ∧ q.rejectReason = some reason)
    ∧ (reason ∉ REJECT_REASONS →
        reject p now reason = Except.error TransitionError.invalidArgument) := by
  have hterm : ¬(p.status = "HANDOVER" ∨ p.status = "REJECTED") := by tauto
  constructor
  · intro hin
    refine ⟨{ p with status := "REJECTED", rejectReason := some reason, audit_log := p.audit_log ++ [⟨now, "REJECTED", reason⟩] }, ?_, rfl, rfl, ?_, rfl, rfl, rfl⟩
    · simp [reject, hterm, hin]
    · exact List.getLast?_concat _
  · intro hout
    simp [reject, hterm, hout]

/-- Claim C6 (witness): the contract applied to a concrete PREALERT case,
once with the enumerated reason "No ICU bed" and once with the out-of-set
reason "Because". -/
theorem C6_reject_contract_witness :
    prealertPatient.status ≠ "HANDOVER"
    ∧ prealertPatient.status ≠ "REJECTED"
    ∧ (("No ICU bed" : String) ∈ REJECT_REASONS →
        ∃ q, reject prealertPatient 200 "No ICU bed" = Except.ok q
          ∧ q.status = "REJECTED"
          ∧ q.audit_log = prealertPatient.audit_log ++ [⟨200, "REJECTED", "No ICU bed"⟩]
          ∧ q.audit_log.getLast? = some ⟨200, "REJECTED", "No ICU bed"⟩
          ∧ q.times = prealertPatient.times ∧ q.id = prealertPatient.id
          ∧ q.rejectReason = some "No ICU bed")
    ∧ (("Because" : String) ∉ REJECT_REASONS →
        reject prealertPatient 200 "Because"
          = Except.error TransitionError.invalidArgument) :=
  ⟨by decide, by decide,
    (C6_reject_contract prealertPatient 200 "No ICU bed" (by decide) (by decide)).1,
    (C6_reject_contract prealertPatient 200 "Because" (by decide) (by decide)).2⟩

/-- Claim C7: publishing the scenario vitals.update event (sbp 80, spo2 95,
avpu "A") for case "C1" and ingesting it does NOT raise one high-urgency
deterioration alert: the rule condition holds (sbp 80 is below 90), and the
code then calls `push_notification` with five positional arguments though
its definition accepts at most four, so ingestion aborts with a `TypeError`
and no alert record is ever appended — for every starting feed state. -/
theorem C7_vitals_alert_type_error :
    poll_events_since dbC7 0 (some "C1") 500
      = [⟨1, 50, "vitals.update", "C1", "emt", c7_payload⟩]
    ∧ ingest_events_for dbC7 "C1" 0 emptyFeed
      = (1, Except.error PyError.typeError)
    ∧ (∀ s : FeedState,
        route_event s ⟨1, 50, "vitals.update", "C1", "emt", c7_payload⟩
          = Except.error PyError.typeError) :=
  ⟨rfl, rfl, fun _ => rfl⟩

/-- Claim C8 (counterexample): content that is valid JSON with a mismatched
schema — here a bare array where the dataset object is expected — is
returned as parsed, not replaced by the default empty structure. -/
theorem C8_counterexample :
    load_data (some (json_dumps (Json.arr [Json.num 1]))) = Json.arr [Json.num 1]
    ∧ Json.arr [Json.num 1] ≠ default_data :=
  ⟨rfl, fun h => Json.noConfusion h⟩

/-- Claim C8 (amended): when no prior data exists, or the stored text fails
to parse (corrupt file), `load_data` returns the default empty structure
with referrals, interventions and resources all empty, instead of failing;
stored content that parses is returned as parsed, with no schema check. -/
theorem C8_load_fallback_amended :
    load_data none = default_data
    ∧ (∀ content, json_loads content = none → load_data (some content) = default_data)
    ∧ (∀ content v, json_loads content = some v → load_data (some content) = v) := by
  refine ⟨rfl, ?_, ?_⟩
  · intro content h; simp [load_data, h]
  · intro content v h; simp [load_data, h]

/-- Claim C8 (witness): the amended theorem applied to the concrete
unparseable content `[Tok.comma]` and to a concrete parseable file. -/
theorem C8_load_fallback_witness :
    json_loads [Tok.comma] = none
    ∧ load_data (some [Tok.comma]) = default_data
    ∧ json_loads (json_dumps (Json.num 7)) = some (Json.num 7)
    ∧ load_data (some (json_dumps (Json.num 7))) = Json.num 7 :=
  ⟨rfl, C8_load_fallback_amended.2.1 [Tok.comma] rfl, rfl,
    C8_load_fallback_amended.2.2 (json_dumps (Json.num 7)) (Json.num 7) rfl⟩

/-- Claim C9: saving the full dataset and reloading it yields the identical
dataset — every referral case with its times, audit log and status — for
every dataset value and every prior file content. -/
theorem C9_save_load_roundtrip (data : Json) (file : Option (List Tok)) :
    load_data (save_data data file) = data := by
  simp [load_data, save_data, json_loads_json_dumps data]

/-- Claim C10: polling never raises on payload data — a stored event whose
payload text is empty or unparseable is still returned, with the empty map
as payload; and publishing with a `None` payload stores the empty map, so a
poll that picks the new event up returns it with the empty map as payload. -/
theorem C10_poll_payload_robust :
    (∀ (db : DB), db.WF → ∀ (last lim : Int), 0 ≤ lim →
      ∀ r ∈ db.rows, last < (r.id : Int) →
        (r.payload = [] ∨ json_loads r.payload = none) →
        (db.rows.filter (rowMatches last none)).length ≤ lim.toNat →
        (⟨r.id, r.ts, r.etype, r.case_id, r.actor, Json.obj []⟩ : PolledEvent)
          ∈ poll_events_since db last none lim)
    ∧ (∀ (db : DB), db.WF → ∀ (now : Nat) (t c a : String) (last lim : Int),
        (∀ r ∈ db.rows, (r.id : Int) ≤ last) → last < (db.nextId : Int) →
        1 ≤ lim →
        poll_events_since (publish_event db now t c a none).1 last none lim
          = [⟨db.nextId, now, t, c, a, Json.obj []⟩]) := by
  constructor
  · intro db hwf last lim hl0 r hr hid hp hfit
    rw [poll_eq_of_wf db hwf last none lim hl0, List.take_of_length_le hfit]
    refine List.mem_map.mpr ⟨r, List.mem_filter.mpr ⟨hr, ?_⟩, ?_⟩
    · simp [rowMatches, hid]
    · simp [toPolled, decode_payload_empty_or_bad r.payload hp]
  · intro db hwf now t c a last lim hw hnext hl1
    have hl0 : (0 : Int) ≤ lim := le_trans (by decide) hl1
    have hwf' := publish_event_wf db now t c a none hwf
    rw [poll_eq_of_wf _ hwf' last none lim hl0]
    have hrows : (publish_event db now t c a none).1.rows
        = db.rows ++ [⟨db.nextId, now, t, c, a, json_dumps (Json.obj [])⟩] := rfl
    rw [hrows, List.filter_append]
    have hold : db.rows.filter (rowMatches last none) = [] := by
      refine List.filter_eq_nil_iff.mpr ?_
      intro r hr
      have := hw r hr
      simp [rowMatches]
      omega
    have hnew : List.filter (rowMatches last none)
        [(⟨db.nextId, now, t, c, a, json_dumps (Json.obj [])⟩ : EventRow)]
        = [⟨db.nextId, now, t, c, a, json_dumps (Json.obj [])⟩] := by
      simp [rowMatches]
      omega
    rw [hold, hnew, List.nil_append]
    have htake : ([(⟨db.nextId, now, t, c, a, json_dumps (Json.obj [])⟩ : EventRow)]).take lim.toNat
        = [⟨db.nextId, now, t, c, a, json_dumps (Json.obj [])⟩] := by
      refine List.take_of_length_le ?_
      simp
      omega
    rw [htake]
    simp [toPolled]
    rfl

/-- Claim C10 (witness): the theorem applied to the concrete bad-payload log
`dbBad` and to a concrete publish-with-None on a fresh log. -/
theorem C10_poll_payload_robust_witness :
    dbBad.WF
    ∧ (([Tok.comma] : List Tok) = [] ∨ json_loads [Tok.comma] = none)
    ∧ (0 : Int) ≤ 200
    ∧ (⟨1, 5, "vitals.update", "A", "emt", Json.obj []⟩ : PolledEvent)
        ∈ poll_events_since dbBad 0 none 200
    ∧ poll_events_since
        (publish_event DB.init 50 "status.update" "C1" "emt" none).1 0 none 500
        = [⟨1, 50, "status.update", "C1", "emt", Json.obj []⟩] :=
  ⟨⟨by decide, by decide⟩, Or.inr rfl, by decide,
    C10_poll_payload_robust.1 dbBad ⟨by decide, by decide⟩ 0 200 (by decide)
      ⟨1, 5, "vitals.update", "A", "emt", [Tok.comma]⟩ (by decide)
      (by decide) (Or.inr rfl) (by decide),
    C10_poll_payload_robust.2 DB.init ⟨by decide, by decide⟩ 50 "status.update"
      "C1" "emt" 0 500 (by intro r hr; cases hr) (by decide) (by decide)⟩

end AHECN
